import Mathlib

/-!
Verification of the crypto order-execution engine.

This file gives a shallow embedding, in Lean 4, of the core components of
the order-execution pipeline — the WebSocket subscriber hub, the execution
worker's lifecycle-status bookkeeping, the DEX router, the Raydium and
Meteora quote clients, the order-intake service and the order-history list
operation — and proves (or refutes) the specification's claims about them.

Modelling conventions:
* Pure TypeScript computations become Lean functions on `Int`/`Nat`/`Rat`
  (a JS `bigint` is an `Int`,  a JS `number` used as an integer or ratio is
  a `Rat`, a timestamp instant is a `Nat`).
* Stateful collaborators (the hub's maps, the queue, the history table) are
  explicit state records threaded through the functions.
* External effects (venue SDK responses, chain submission outcomes, the
  `Date.parse` verdict on a cursor string) appear as explicit inputs, so a
  theorem quantifying over them covers every behaviour of the collaborator.
* Fallible code returns `Except`/`Option`.
-/

/-- Lifecycle status of an order (`OrderLifecycleStatus` in the order types
module). -/
inductive OrderLifecycleStatus
  | pending
  | queued
  | routing
  | building
  | submitted
  | confirmed
  | failed
deriving DecidableEq, Repr

/-- One status message streamed to a subscriber
(`OrderStatusMessage`: `{orderId, status, detail?, link?}`). -/
structure OrderStatusMessage where
  orderId : String
  status : OrderLifecycleStatus
  detail : Option String
  link : Option String
deriving DecidableEq, Repr

/-- State of the WebSocket subscriber hub (`class WebSocketManager` in the
websocket manager module).  Sockets are identified by numbers;
`socketOpen s` models the `socket.readyState === socket.OPEN` test for
socket `s` (sockets do not change readiness during the traces considered
here).  `sockets` and `pendingMessages` embed the two `Map`s of the class
(a key absent from the map is `none` / `[]`), and `deliveries` is the
chronological log of `socket.send` calls — the socket id paired with the
message that was serialised to it. -/
structure WebSocketManager where
  sockets : String → Option Nat
  socketOpen : Nat → Bool
  pendingMessages : String → List OrderStatusMessage
  deliveries : List (Nat × OrderStatusMessage)

/-- `WebSocketManager.send(orderId, payload)`: if no socket is attached for
`orderId`, or the attached socket is not OPEN, append the payload to the
per-order backlog; otherwise serialise it to the socket.  (The `try/catch`
around `socket.send` only logs, so a send attempt is recorded in
`deliveries` either way.) -/
def WebSocketManager.send (h : WebSocketManager) (orderId : String)
    (payload : OrderStatusMessage) : WebSocketManager :=
  let buffered : WebSocketManager :=
    { h with pendingMessages := fun id =>
        if id = orderId then h.pendingMessages orderId ++ [payload]
        else h.pendingMessages id }
  match h.sockets orderId with
  | none => buffered
  | some s =>
    if h.socketOpen s then
      { h with deliveries := h.deliveries ++ [(s, payload)] }
    else buffered

/-- `WebSocketManager.sendStatus(orderId, status, detail?, link?)` —
convenience wrapper building the status message. -/
def WebSocketManager.sendStatus (h : WebSocketManager) (orderId : String)
    (status : OrderLifecycleStatus) (detail link : Option String) :
    WebSocketManager :=
  h.send orderId { orderId := orderId, status := status, detail := detail, link := link }

/-- `WebSocketManager.attach(orderId, socket)`: register the socket (a second
attach replaces the first), then — when a backlog exists — drain every
buffered message for `orderId` to the socket in insertion order and clear
the backlog.  The drain writes to the socket directly, without the
readiness check `send` performs. -/
def WebSocketManager.attach (h : WebSocketManager) (orderId : String)
    (s : Nat) : WebSocketManager :=
  let h1 : WebSocketManager :=
    { h with sockets := fun id => if id = orderId then some s else h.sockets id }
  let backlog := h1.pendingMessages orderId
  if backlog.isEmpty then h1
  else
    { h1 with
      deliveries := h1.deliveries ++ backlog.map (fun m => (s, m)),
      pendingMessages := fun id => if id = orderId then [] else h1.pendingMessages id }

/-- A sequence of `hub.send` calls for one `orderId`, in order. -/
def WebSocketManager.sendSequence (h : WebSocketManager) (orderId : String)
    (ms : List OrderStatusMessage) : WebSocketManager :=
  ms.foldl (fun acc m => acc.send orderId m) h

theorem WebSocketManager.send_of_noSocket (h : WebSocketManager)
    (orderId : String) (m : OrderStatusMessage)
    (hs : h.sockets orderId = none) :
    h.send orderId m =
      { h with pendingMessages := fun id =>
          if id = orderId then h.pendingMessages orderId ++ [m]
          else h.pendingMessages id } := by
  simp [WebSocketManager.send, hs]

theorem WebSocketManager.sendSequence_of_noSocket (orderId : String)
    (ms : List OrderStatusMessage) (h : WebSocketManager)
    (hs : h.sockets orderId = none) :
    (h.sendSequence orderId ms).sockets = h.sockets ∧
    (h.sendSequence orderId ms).deliveries = h.deliveries ∧
    (h.sendSequence orderId ms).pendingMessages orderId =
      h.pendingMessages orderId ++ ms := by
  induction ms generalizing h with
  | nil => simp [WebSocketManager.sendSequence]
  | cons m ms ih =>
    have hstep := WebSocketManager.send_of_noSocket h orderId m hs
    have hs1 : (h.send orderId m).sockets orderId = none := by
      rw [hstep]; exact hs
    have hrest := ih (h.send orderId m) hs1
    refine ⟨?_, ?_, ?_⟩
    · rw [show h.sendSequence orderId (m :: ms) = (h.send orderId m).sendSequence orderId ms
        from rfl]
      rw [hrest.1, hstep]
    · rw [show h.sendSequence orderId (m :: ms) = (h.send orderId m).sendSequence orderId ms
        from rfl]
      rw [hrest.2.1, hstep]
    · rw [show h.sendSequence orderId (m :: ms) = (h.send orderId m).sendSequence orderId ms
        from rfl]
      rw [hrest.2.2, hstep]
      simp

theorem WebSocketManager.attach_deliveries (h : WebSocketManager)
    (orderId : String) (s : Nat) :
    (h.attach orderId s).deliveries =
      h.deliveries ++ (h.pendingMessages orderId).map (fun m => (s, m)) := by
  unfold WebSocketManager.attach
  by_cases hb : (h.pendingMessages orderId).isEmpty
  · simp [List.isEmpty_iff.mp hb]
  · simp [hb]

theorem WebSocketManager.attach_pending_self (h : WebSocketManager)
    (orderId : String) (s : Nat) :
    (h.attach orderId s).pendingMessages orderId = [] := by
  unfold WebSocketManager.attach
  by_cases hb : (h.pendingMessages orderId).isEmpty
  · simp [hb, List.isEmpty_iff.mp hb]
  · simp [hb]

/-- Claim C8: round-trip law of the subscriber hub.  If `n` messages are
sent for an `orderId` while no subscriber is attached for it (and its
backlog starts empty), then: no message is delivered during the sends; a
subsequent `attach` delivers exactly those messages, in the original send
order, to the newly attached socket; the backlog is cleared; and a second
`attach` delivers nothing buffered. -/
theorem hub_send_then_attach_roundtrip (h : WebSocketManager)
    (orderId : String) (s s2 : Nat) (ms : List OrderStatusMessage)
    (hsock : h.sockets orderId = none)
    (hempty : h.pendingMessages orderId = []) :
    (h.sendSequence orderId ms).deliveries = h.deliveries ∧
    ((h.sendSequence orderId ms).attach orderId s).deliveries =
      h.deliveries ++ ms.map (fun m => (s, m)) ∧
    ((h.sendSequence orderId ms).attach orderId s).pendingMessages orderId = [] ∧
    (((h.sendSequence orderId ms).attach orderId s).attach orderId s2).deliveries =
      ((h.sendSequence orderId ms).attach orderId s).deliveries := by
  obtain ⟨hso, hdel, hpend⟩ :=
    WebSocketManager.sendSequence_of_noSocket orderId ms h hsock
  rw [hempty] at hpend
  simp only [List.nil_append] at hpend
  refine ⟨hdel, ?_, ?_, ?_⟩
  · rw [WebSocketManager.attach_deliveries, hdel, hpend]
  · exact WebSocketManager.attach_pending_self _ orderId s
  · rw [WebSocketManager.attach_deliveries,
      WebSocketManager.attach_pending_self _ orderId s]
    simp

/-- Claim C8 witness: a concrete hub with two buffered sends followed by an
attach delivering both messages in order. -/
theorem hub_send_then_attach_roundtrip_witness :
    ((WebSocketManager.sendSequence
        { sockets := fun _ => none, socketOpen := fun _ => true,
          pendingMessages := fun _ => [], deliveries := [] } "OID1"
        [{ orderId := "OID1", status := .pending, detail := none, link := none },
         { orderId := "OID1", status := .queued, detail := none, link := none }]).attach
        "OID1" 7).deliveries =
      [(7, { orderId := "OID1", status := .pending, detail := none, link := none }),
       (7, { orderId := "OID1", status := .queued, detail := none, link := none })] := by
  have h := hub_send_then_attach_roundtrip
    { sockets := fun _ => none, socketOpen := fun _ => true,
      pendingMessages := fun _ => [], deliveries := [] } "OID1" 7 8
    [{ orderId := "OID1", status := .pending, detail := none, link := none },
     { orderId := "OID1", status := .queued, detail := none, link := none }]
    rfl rfl
  simpa using h.2.1

/-- Truthiness of an optional string, as JavaScript's `if (detail)` sees it:
`undefined` and the empty string are falsy. -/
def strTruthy : Option String → Bool
  | none => false
  | some s => !(s == "")

/-- The order job payload (`OrderJobPayload`): the request fields plus the
worker's bookkeeping.  `emittedStatuses` is the idempotency set carried on
the payload (`new Set(job.data.emittedStatuses ?? [])` preserves insertion
order, so a `List` without duplicates is the faithful image); a payload
enqueued by intake carries no `emittedStatuses` field, which reads back as
`[]`. -/
structure OrderJobPayload where
  orderId : String
  tokenIn : String
  tokenOut : String
  amount : Rat
  orderType : String
  receivedAt : String
  emittedStatuses : List OrderLifecycleStatus
  lastTxSignature : Option String
  lastError : Option String
deriving DecidableEq, Repr

/-- One recorded call to `orderHistoryService.appendStatus` (the history
service's append operation, which atomically updates the row's status and
appends one `statusHistory` entry).  The execution worker's environment
offers this collaborator, but the worker module never imports the history
service and `recordStatus` never invokes it. -/
structure HistoryAppendCall where
  orderId : String
  status : OrderLifecycleStatus
  detail : Option String
  link : Option String
deriving DecidableEq, Repr

/-- The collaborators the execution worker can reach: the WebSocket hub and
the order-history service (represented by the log of append calls made to
it). -/
structure WorkerEnv where
  hub : WebSocketManager
  historyAppends : List HistoryAppendCall

/-- `recordStatus(job, status, detail?, link?)` from the order worker
module: if the status was already emitted for this job, re-broadcast it only
when a (truthy) detail is present; otherwise add the status to the
idempotency set, persist the payload (`job.updateData`; failures are only
logged) and broadcast.  Note that the only effect besides the payload update
is `websocketManager.sendStatus` — nothing is written to order history. -/
def recordStatus (env : WorkerEnv) (job : OrderJobPayload)
    (status : OrderLifecycleStatus) (detail link : Option String) :
    WorkerEnv × OrderJobPayload :=
  if job.emittedStatuses.contains status then
    if strTruthy detail then
      ({ env with hub := env.hub.sendStatus job.orderId status detail link }, job)
    else (env, job)
  else
    let job1 := { job with emittedStatuses := job.emittedStatuses ++ [status] }
    ({ env with hub := env.hub.sendStatus job.orderId status detail link }, job1)

/-- Explorer URL built by the worker for a signature. -/
def explorerLink (sig : String) : String :=
  "https://explorer.solana.com/tx/" ++ sig ++ "?cluster=devnet"

/-- Outcome of the external effects of one processing attempt, as seen from
`orderProcessor`: routing failed, the transaction build failed, submission
failed (possibly after the `onSubmitted` callback fired with a signature),
or the transaction was submitted and confirmed. -/
inductive RunOutcome
  | routeFailed (message : String)
  | buildFailed (message : String)
  | submitFailed (submittedSignature : Option String) (message : String)
  | confirmedRun (signature : String)
deriving DecidableEq, Repr

/-- `orderProcessor` from the order worker module, for one dequeue of the
job: record `queued` and `routing`, then — following the given external
outcome — record `building`, `submitted` (inside the `onSubmitted`
callback, storing `lastTxSignature`) and `confirmed`, or store `lastError`
and re-throw.  The rate-limit gate only sleeps and is omitted.  Returns the
processor's `Except`-valued result (the thrown error or the signature). -/
def orderProcessor (env : WorkerEnv) (job : OrderJobPayload)
    (outcome : RunOutcome) : WorkerEnv × OrderJobPayload × Except String String :=
  let step1 := recordStatus env job .queued none none
  let step2 := recordStatus step1.1 step1.2 .routing none none
  let env2 := step2.1
  let job2 := step2.2
  match outcome with
  | .routeFailed msg => (env2, { job2 with lastError := some msg }, Except.error msg)
  | .buildFailed msg =>
    let step3 := recordStatus env2 job2 .building none none
    (step3.1, { step3.2 with lastError := some msg }, Except.error msg)
  | .submitFailed subSig msg =>
    let step3 := recordStatus env2 job2 .building none none
    let step4 :=
      match subSig with
      | some sig =>
        recordStatus step3.1 { step3.2 with lastTxSignature := some sig }
          .submitted (some sig) (some (explorerLink sig))
      | none => (step3.1, step3.2)
    (step4.1, { step4.2 with lastError := some msg }, Except.error msg)
  | .confirmedRun sig =>
    let step3 := recordStatus env2 job2 .building none none
    let step4 := recordStatus step3.1 { step3.2 with lastTxSignature := some sig }
      .submitted (some sig) (some (explorerLink sig))
    let step5 := recordStatus step4.1 step4.2
      .confirmed (some sig) (some (explorerLink sig))
    (step5.1, step5.2, Except.ok sig)

/-- One full processing attempt: `orderProcessor`, plus the worker's
`failed` event handler, which on a thrown error calls
`recordStatus(job, 'failed', error.message)`. -/
def processAttempt (env : WorkerEnv) (job : OrderJobPayload)
    (outcome : RunOutcome) : WorkerEnv × OrderJobPayload :=
  match orderProcessor env job outcome with
  | (env1, job1, Except.ok _) => (env1, job1)
  | (env1, job1, Except.error msg) =>
    recordStatus env1 job1 .failed (some msg) none

/-- A sequence of processing attempts of the same job (queue redeliveries),
each one carrying over the payload — and with it the accumulated
`emittedStatuses` set — from the previous attempt. -/
def processAttempts (env : WorkerEnv) (job : OrderJobPayload)
    (outcomes : List RunOutcome) : WorkerEnv × OrderJobPayload :=
  outcomes.foldl (fun p oc => processAttempt p.1 p.2 oc) (env, job)

/-- Number of status messages for `orderId` with status `s` the hub has
taken in, whether already delivered to a socket or still buffered. -/
def WebSocketManager.statusEmissions (h : WebSocketManager) (orderId : String)
    (s : OrderLifecycleStatus) : Nat :=
  (h.deliveries.map Prod.snd ++ h.pendingMessages orderId).countP
    (fun m => m.orderId == orderId && m.status == s)

theorem WebSocketManager.statusEmissions_sendStatus (h : WebSocketManager)
    (oid : String) (st : OrderLifecycleStatus) (d l : Option String)
    (s : OrderLifecycleStatus) :
    (h.sendStatus oid st d l).statusEmissions oid s =
      h.statusEmissions oid s + (if st = s then 1 else 0) := by
  unfold WebSocketManager.sendStatus WebSocketManager.send
    WebSocketManager.statusEmissions
  rcases e : h.sockets oid with _ | sk
  · simp [e, List.countP_append, List.countP_cons]
    by_cases hst : st = s <;> simp [hst] <;> omega
  · simp only [e]
    by_cases hopen : h.socketOpen sk
    · simp [hopen, List.countP_append, List.countP_cons]
      by_cases hst : st = s <;> simp [hst] <;> omega
    · simp [hopen, List.countP_append, List.countP_cons]
      by_cases hst : st = s <;> simp [hst] <;> omega

theorem contains_push {α} [DecidableEq α] (l : List α) (a b : α) :
    (l ++ [a]).contains b = (l.contains b || (a == b)) := by
  by_cases h : a = b
  · subst h; simp
  · simp [h, Ne.symm h]

theorem recordStatus_contains (env : WorkerEnv) (job : OrderJobPayload)
    (st : OrderLifecycleStatus) (d l : Option String)
    (s : OrderLifecycleStatus) :
    ((recordStatus env job st d l).2.emittedStatuses.contains s) =
      (job.emittedStatuses.contains s || st == s) := by
  unfold recordStatus
  by_cases hc : st ∈ job.emittedStatuses
  · by_cases hd : strTruthy d <;> simp [hc, hd] <;>
      (intro hst; subst hst; exact hc)
  · by_cases hst : st = s
    · subst hst; simp [hc]
    · simp [hc, hst, Ne.symm hst]

/-- Bookkeeping relation used for the idempotence proof: going from worker
state `p` to worker state `q`, the order id is preserved, no history append
is made, the idempotency set only grows with respect to status `s`, and the
number of hub emissions of `s` grows exactly when `s` enters the set. -/
def WStep (s : OrderLifecycleStatus) (p q : WorkerEnv × OrderJobPayload) : Prop :=
  q.2.orderId = p.2.orderId ∧
  q.1.historyAppends = p.1.historyAppends ∧
  (p.2.emittedStatuses.contains s = true → q.2.emittedStatuses.contains s = true) ∧
  q.1.hub.statusEmissions p.2.orderId s +
      (if p.2.emittedStatuses.contains s then 1 else 0) =
    p.1.hub.statusEmissions p.2.orderId s +
      (if q.2.emittedStatuses.contains s then 1 else 0)

theorem WStep.id_step (s : OrderLifecycleStatus)
    (p : WorkerEnv × OrderJobPayload) :
    WStep s p p := ⟨Eq.refl _, Eq.refl _, fun hc => hc, by omega⟩

theorem WStep.trans {s : OrderLifecycleStatus}
    {p q r : WorkerEnv × OrderJobPayload}
    (h1 : WStep s p q) (h2 : WStep s q r) : WStep s p r := by
  obtain ⟨ho1, hh1, hm1, he1⟩ := h1
  obtain ⟨ho2, hh2, hm2, he2⟩ := h2
  rw [ho1] at he2
  refine ⟨ho2.trans ho1, hh2.trans hh1, fun hc => hm2 (hm1 hc), by omega⟩

theorem recordStatus_wstep (env : WorkerEnv) (job : OrderJobPayload)
    (st : OrderLifecycleStatus) (d l : Option String)
    (s : OrderLifecycleStatus) (hcond : st = s → d = none) :
    WStep s (env, job) (recordStatus env job st d l) := by
  refine ⟨?_, ?_, ?_, ?_⟩
  · unfold recordStatus
    by_cases hc : job.emittedStatuses.contains st <;>
      by_cases hd : strTruthy d <;> simp_all
  · unfold recordStatus
    by_cases hc : job.emittedStatuses.contains st <;>
      by_cases hd : strTruthy d <;> simp_all
  · intro hc
    rw [recordStatus_contains]
    simp only [Bool.or_eq_true]
    exact Or.inl hc
  · unfold recordStatus
    by_cases hc : st ∈ job.emittedStatuses
    · by_cases hd : strTruthy d
      · by_cases hst : st = s
        · subst hst
          rw [hcond rfl] at hd
          simp [strTruthy] at hd
        · simp [hc, hd, WebSocketManager.statusEmissions_sendStatus, hst]
      · simp [hc, hd]
    · by_cases hst : st = s
      · subst hst
        simp [hc, WebSocketManager.statusEmissions_sendStatus]
      · simp [hc, WebSocketManager.statusEmissions_sendStatus, hst, Ne.symm hst]

theorem wstep_record_then {s : OrderLifecycleStatus}
    {p q : WorkerEnv × OrderJobPayload} (h : WStep s p q)
    (st : OrderLifecycleStatus) (d l : Option String)
    (hcond : st = s → d = none) :
    WStep s p (recordStatus q.1 q.2 st d l) :=
  h.trans (recordStatus_wstep q.1 q.2 st d l s hcond)

theorem wstep_set_signature {s : OrderLifecycleStatus}
    {p q : WorkerEnv × OrderJobPayload} (h : WStep s p q) (x : Option String) :
    WStep s p (q.1, { q.2 with lastTxSignature := x }) :=
  h.trans ⟨rfl, rfl, fun hc => hc, rfl⟩

theorem wstep_set_error {s : OrderLifecycleStatus}
    {p q : WorkerEnv × OrderJobPayload} (h : WStep s p q) (x : Option String) :
    WStep s p (q.1, { q.2 with lastError := x }) :=
  h.trans ⟨rfl, rfl, fun hc => hc, rfl⟩

theorem nodup_detail_of_core (s : OrderLifecycleStatus)
    (hs : s = .queued ∨ s = .routing ∨ s = .building)
    (st : OrderLifecycleStatus) (d : Option String)
    (hne : st = .submitted ∨ st = .confirmed ∨ st = .failed) :
    st = s → d = none := by
  intro heq
  exfalso
  rcases hs with h | h | h <;> rcases hne with h2 | h2 | h2 <;>
    rw [h, h2] at heq <;> exact OrderLifecycleStatus.noConfusion heq

theorem processAttempt_wstep (env : WorkerEnv) (job : OrderJobPayload)
    (oc : RunOutcome) (s : OrderLifecycleStatus)
    (hs : s = .queued ∨ s = .routing ∨ s = .building) :
    WStep s (env, job) (processAttempt env job oc) := by
  have base := WStep.id_step s (env, job)
  have h2 := (base.trans (recordStatus_wstep env job .queued none none s
      (fun _ => rfl))).trans
    (recordStatus_wstep _ _ .routing none none s (fun _ => rfl))
  cases oc with
  | routeFailed msg =>
    exact (wstep_set_error h2 (some msg)).trans
      (recordStatus_wstep _ _ .failed (some msg) none s
        (nodup_detail_of_core s hs .failed (some msg) (Or.inr (Or.inr rfl))))
  | buildFailed msg =>
    have h3 := h2.trans (recordStatus_wstep _ _ .building none none s
      (fun _ => rfl))
    exact (wstep_set_error h3 (some msg)).trans
      (recordStatus_wstep _ _ .failed (some msg) none s
        (nodup_detail_of_core s hs .failed (some msg) (Or.inr (Or.inr rfl))))
  | submitFailed subSig msg =>
    have h3 := h2.trans (recordStatus_wstep _ _ .building none none s
      (fun _ => rfl))
    cases subSig with
    | none =>
      exact (wstep_set_error h3 (some msg)).trans
        (recordStatus_wstep _ _ .failed (some msg) none s
          (nodup_detail_of_core s hs .failed (some msg) (Or.inr (Or.inr rfl))))
    | some sig =>
      have h4 := (wstep_set_signature h3 (some sig)).trans
        (recordStatus_wstep _ _ .submitted (some sig)
          (some (explorerLink sig)) s
          (nodup_detail_of_core s hs .submitted (some sig) (Or.inl rfl)))
      exact (wstep_set_error h4 (some msg)).trans
        (recordStatus_wstep _ _ .failed (some msg) none s
          (nodup_detail_of_core s hs .failed (some msg) (Or.inr (Or.inr rfl))))
  | confirmedRun sig =>
    have h3 := h2.trans (recordStatus_wstep _ _ .building none none s
      (fun _ => rfl))
    have h4 := (wstep_set_signature h3 (some sig)).trans
      (recordStatus_wstep _ _ .submitted (some sig)
        (some (explorerLink sig)) s
        (nodup_detail_of_core s hs .submitted (some sig) (Or.inl rfl)))
    exact h4.trans
      (recordStatus_wstep _ _ .confirmed (some sig)
        (some (explorerLink sig)) s
        (nodup_detail_of_core s hs .confirmed (some sig) (Or.inr (Or.inl rfl))))

theorem processAttempts_wstep (outcomes : List RunOutcome) (env : WorkerEnv)
    (job : OrderJobPayload) (s : OrderLifecycleStatus)
    (hs : s = .queued ∨ s = .routing ∨ s = .building) :
    WStep s (env, job) (processAttempts env job outcomes) := by
  induction outcomes generalizing env job with
  | nil => exact WStep.id_step s (env, job)
  | cons oc rest ih =>
    exact (processAttempt_wstep env job oc s hs).trans
      (ih (processAttempt env job oc).1 (processAttempt env job oc).2)

/-- Claim C6: across any number of processings of the same job — the
payload, and with it the accumulated `emittedStatuses` set, carried from
attempt to attempt — the worker broadcasts each of `queued`, `routing` and
`building` at most once for the order (`submitted`/`confirmed`/`failed` are
re-emitted only through the detail-carrying re-broadcast branch), and no
history append is ever made, so each status is also recorded to history at
most once. -/
theorem worker_lifecycle_statuses_deduplicated (env : WorkerEnv)
    (job : OrderJobPayload) (outcomes : List RunOutcome)
    (s : OrderLifecycleStatus)
    (hs : s = .queued ∨ s = .routing ∨ s = .building)
    (hinit : job.emittedStatuses = []) :
    (processAttempts env job outcomes).1.hub.statusEmissions job.orderId s ≤
      env.hub.statusEmissions job.orderId s + 1 ∧
    (processAttempts env job outcomes).1.historyAppends = env.historyAppends := by
  obtain ⟨hoid, hhist, hmono, hemit⟩ := processAttempts_wstep outcomes env job s hs
  refine ⟨?_, hhist⟩
  rw [hinit] at hemit
  simp only [List.contains_nil, Bool.false_eq_true, if_false, Nat.add_zero] at hemit
  by_cases hfin : s ∈ (processAttempts env job outcomes).2.emittedStatuses <;>
    simp [hfin] at hemit <;> omega

/-- Claim C6 witness: two processing attempts of one job (a routing failure
followed by a confirmed run); the `queued` status reaches the hub exactly
once and history receives nothing. -/
theorem worker_lifecycle_statuses_deduplicated_witness :
    (processAttempts
        { hub := { sockets := fun _ => none, socketOpen := fun _ => false,
                   pendingMessages := fun _ => [], deliveries := [] },
          historyAppends := [] }
        { orderId := "OID6", tokenIn := "MINTA", tokenOut := "MINTB",
          amount := 1000000, orderType := "market", receivedAt := "t0",
          emittedStatuses := [], lastTxSignature := none, lastError := none }
        [RunOutcome.routeFailed "boom", RunOutcome.confirmedRun "SIG6"]).1.hub.statusEmissions
        "OID6" .queued ≤
      WebSocketManager.statusEmissions
        { sockets := fun _ => none, socketOpen := fun _ => false,
          pendingMessages := fun _ => [], deliveries := [] } "OID6" .queued + 1 ∧
    (processAttempts
        { hub := { sockets := fun _ => none, socketOpen := fun _ => false,
                   pendingMessages := fun _ => [], deliveries := [] },
          historyAppends := [] }
        { orderId := "OID6", tokenIn := "MINTA", tokenOut := "MINTB",
          amount := 1000000, orderType := "market", receivedAt := "t0",
          emittedStatuses := [], lastTxSignature := none, lastError := none }
        [RunOutcome.routeFailed "boom", RunOutcome.confirmedRun "SIG6"]).1.historyAppends =
      [] :=
  worker_lifecycle_statuses_deduplicated
    { hub := { sockets := fun _ => none, socketOpen := fun _ => false,
               pendingMessages := fun _ => [], deliveries := [] },
      historyAppends := [] }
    { orderId := "OID6", tokenIn := "MINTA", tokenOut := "MINTB",
      amount := 1000000, orderType := "market", receivedAt := "t0",
      emittedStatuses := [], lastTxSignature := none, lastError := none }
    [RunOutcome.routeFailed "boom", RunOutcome.confirmedRun "SIG6"]
    .queued (Or.inl rfl) rfl

/-- Claim C1 (evidence of the divergence): processing a concrete order to
confirmation broadcasts the full `queued`, `routing`, `building`,
`submitted`, `confirmed` sequence to the subscriber hub, yet not a single
entry is appended to the order's history record — `recordStatus` only calls
`websocketManager.sendStatus`, and no code path of the worker invokes the
history service. -/
theorem worker_broadcasts_without_history_append :
    ((processAttempt
        { hub := { sockets := fun _ => none, socketOpen := fun _ => false,
                   pendingMessages := fun _ => [], deliveries := [] },
          historyAppends := [] }
        { orderId := "ORD1", tokenIn := "MINTA", tokenOut := "MINTB",
          amount := 1000000, orderType := "market", receivedAt := "t0",
          emittedStatuses := [], lastTxSignature := none, lastError := none }
        (RunOutcome.confirmedRun "SIG1")).1.historyAppends = []) ∧
    ((processAttempt
        { hub := { sockets := fun _ => none, socketOpen := fun _ => false,
                   pendingMessages := fun _ => [], deliveries := [] },
          historyAppends := [] }
        { orderId := "ORD1", tokenIn := "MINTA", tokenOut := "MINTB",
          amount := 1000000, orderType := "market", receivedAt := "t0",
          emittedStatuses := [], lastTxSignature := none, lastError := none }
        (RunOutcome.confirmedRun "SIG1")).1.hub.pendingMessages "ORD1").map
        (fun m => m.status) =
      [.queued, .routing, .building, .submitted, .confirmed] := by
  decide

/-- Venue tag (`SupportedDex = 'raydium' | 'meteora'`). -/
inductive SupportedDex
  | raydium
  | meteora
deriving DecidableEq, Repr

/-- `QuoteRequest`: token mints as opaque identifiers, `amount` a `bigint`
in base units, `slippageBps` a number. -/
structure QuoteRequest where
  tokenIn : String
  tokenOut : String
  amount : Int
  slippageBps : Int
deriving DecidableEq, Repr

/-- `QuoteResponse`.  The `priceImpactBps`/`feeBps` display fields are
computed with the `Decimal` floating-point library purely for logging and
are referenced by no claim; they are omitted here.  `routeMeta` (used only
to carry `baseIn` into the transaction builder) is likewise omitted. -/
structure QuoteResponse where
  dex : SupportedDex
  estimatedOut : Int
  minOut : Int
  poolId : Option String
  request : QuoteRequest
deriving DecidableEq, Repr

/-- Router failure, distinguishing the plain `Error('Amount must be
positive')` thrown by `toLamports` from the
`RoutingError('Unable to fetch quotes from Raydium or Meteora')` carrying
the two per-venue reason strings (`null` for a venue that did not fail). -/
inductive RouterFailure
  | invalidAmount
  | noQuotes (raydiumError meteoraError : Option String)
deriving DecidableEq, Repr

/-- `DexRoutePlan` minus the `buildTransaction` closure (a deferred call
into the winning client, irrelevant to routing claims). -/
structure DexRoutePlan where
  bestDex : SupportedDex
  quote : QuoteResponse
deriving DecidableEq, Repr

/-- `DEFAULT_SLIPPAGE_BPS = Math.max(1, Math.floor(env.trading.slippage *
10_000))`, as a function of the configured fractional slippage. -/
def defaultSlippageBpsOf (slippage : Rat) : Int :=
  max 1 ⌊slippage * 10000⌋

/-- `env.trading.slippage` defaults to `0.01` (`SLIPPAGE` unset). -/
def defaultSlippageBps : Int := defaultSlippageBpsOf (1 / 100)

/-- The single `QuoteRequest` the router constructs: `toLamports` converts
`order.amount` by `BigInt(Math.floor(amount))` — no decimal scaling. -/
def routeRequest (order : OrderJobPayload) : QuoteRequest :=
  { tokenIn := order.tokenIn, tokenOut := order.tokenOut,
    amount := ⌊order.amount⌋, slippageBps := defaultSlippageBps }

/-- The list of admitted quotes, in venue registration order:
`Promise.allSettled([raydium, meteora])`, keeping the fulfilled values. -/
def successfulQuotes (raydiumQuote meteoraQuote : Except String QuoteResponse) :
    List QuoteResponse :=
  (match raydiumQuote with | .ok q => [q] | .error _ => []) ++
  (match meteoraQuote with | .ok q => [q] | .error _ => [])

/-- Reason string recorded for a settled venue outcome: the rejection
message, or `null` when the venue fulfilled. -/
def venueError : Except String QuoteResponse → Option String
  | .ok _ => none
  | .error e => some e

/-- The selection step of `findBestRoute`, applied to the two settled
venue outcomes: fail with both reasons when no quote was admitted,
otherwise `reduce` over the admitted quotes keeping the strictly greater
`estimatedOut` (so the earlier-registered venue wins ties). -/
def routeFromOutcomes (raydiumQuote meteoraQuote : Except String QuoteResponse) :
    Except RouterFailure DexRoutePlan :=
  match successfulQuotes raydiumQuote meteoraQuote with
  | [] => .error (.noQuotes (venueError raydiumQuote) (venueError meteoraQuote))
  | q :: qs =>
    let bestQuote := qs.foldl
      (fun best current =>
        if current.estimatedOut > best.estimatedOut then current else best) q
    .ok { bestDex := bestQuote.dex, quote := bestQuote }

/-- `SolanaDexRouter.findBestRoute`: validate the amount (`toLamports`
throws before any venue is consulted), build the single quote request, ask
both venue clients — each an oracle from the request to a settled outcome,
where an `error` covers both a venue rejection and the
`withTimeout`-induced `routing/timeout` rejection — and select.  Token
mints are treated as opaque valid identifiers (`new PublicKey` parsing is
SDK behaviour outside the model). -/
def findBestRoute (order : OrderJobPayload)
    (raydiumGetQuote meteoraGetQuote : QuoteRequest → Except String QuoteResponse) :
    Except RouterFailure DexRoutePlan :=
  if order.amount ≤ 0 then .error .invalidAmount
  else
    routeFromOutcomes (raydiumGetQuote (routeRequest order))
      (meteoraGetQuote (routeRequest order))

/-- Claim C3: when `findBestRoute` succeeds, the returned plan carries an
admitted quote whose `estimatedOut` is maximal among all admitted quotes,
and on a tie the venue registered earlier (Raydium before Meteora) wins. -/
theorem findBestRoute_selects_max_estimatedOut (order : OrderJobPayload)
    (rq mq : QuoteRequest → Except String QuoteResponse) (plan : DexRoutePlan)
    (h : findBestRoute order rq mq = .ok plan) :
    plan.quote ∈ successfulQuotes (rq (routeRequest order)) (mq (routeRequest order)) ∧
    (∀ q ∈ successfulQuotes (rq (routeRequest order)) (mq (routeRequest order)),
      q.estimatedOut ≤ plan.quote.estimatedOut) ∧
    (∀ r m, rq (routeRequest order) = .ok r → mq (routeRequest order) = .ok m →
      m.estimatedOut = r.estimatedOut → plan.quote = r) := by
  unfold findBestRoute at h
  by_cases hamt : order.amount ≤ 0
  · simp [hamt] at h
  · simp only [hamt, if_false] at h
    rcases hr : rq (routeRequest order) with er | r <;>
      rcases hm : mq (routeRequest order) with em | m <;>
      rw [hr, hm] at h <;>
      simp only [routeFromOutcomes, successfulQuotes] at h ⊢
    · exact absurd h (by simp)
    · simp only [List.nil_append, List.foldl_nil] at h
      injection h with h2
      have hq : plan.quote = m := by rw [← h2]
      refine ⟨by rw [hq]; simp, ?_, ?_⟩
      · intro q hqm
        simp at hqm
        subst hqm
        rw [hq]
      · intro r' m' hr' hm' htie
        exact absurd hr' (by simp)
    · simp only [List.append_nil, List.foldl_nil] at h
      injection h with h2
      have hq : plan.quote = r := by rw [← h2]
      refine ⟨by rw [hq]; simp, ?_, ?_⟩
      · intro q hqm
        simp at hqm
        subst hqm
        rw [hq]
      · intro r' m' hr' hm' htie
        exact absurd hm' (by simp)
    · simp only [List.cons_append, List.nil_append, List.foldl_cons,
        List.foldl_nil] at h
      by_cases hcmp : m.estimatedOut > r.estimatedOut
      · rw [if_pos hcmp] at h
        injection h with h2
        have hq : plan.quote = m := by rw [← h2]
        refine ⟨by rw [hq]; simp, ?_, ?_⟩
        · intro q hqm
          simp at hqm
          rw [hq]
          rcases hqm with hqm | hqm <;> subst hqm <;> omega
        · intro r' m' hr' hm' htie
          have e1 : r = r' := Except.ok.inj hr'
          have e2 : m = m' := Except.ok.inj hm'
          subst e1
          subst e2
          exfalso
          omega
      · rw [if_neg hcmp] at h
        injection h with h2
        have hq : plan.quote = r := by rw [← h2]
        refine ⟨by rw [hq]; simp, ?_, ?_⟩
        · intro q hqm
          simp at hqm
          rw [hq]
          rcases hqm with hqm | hqm <;> subst hqm <;> omega
        · intro r' m' hr' hm' htie
          have e1 : r = r' := Except.ok.inj hr'
          subst e1
          rw [hq]

/-- Claim C3 witness: two admitted quotes, Raydium at 2000000 and Meteora
at 1800000; the plan carries the admitted Raydium quote. -/
theorem findBestRoute_selects_max_estimatedOut_witness :
    (DexRoutePlan.mk SupportedDex.raydium
        { dex := .raydium, estimatedOut := 2000000, minOut := 1900000,
          poolId := some "rpool",
          request := { tokenIn := "MA", tokenOut := "MB", amount := 1000000,
                       slippageBps := 100 } }).quote ∈
      successfulQuotes
        ((fun _ => Except.ok
            { dex := .raydium, estimatedOut := 2000000, minOut := 1900000,
              poolId := some "rpool",
              request := { tokenIn := "MA", tokenOut := "MB", amount := 1000000,
                           slippageBps := 100 } } :
          QuoteRequest → Except String QuoteResponse)
          (routeRequest
            { orderId := "OID3", tokenIn := "MA", tokenOut := "MB",
              amount := 1000000, orderType := "market", receivedAt := "t0",
              emittedStatuses := [], lastTxSignature := none, lastError := none }))
        ((fun _ => Except.ok
            { dex := .meteora, estimatedOut := 1800000, minOut := 1700000,
              poolId := some "mpool",
              request := { tokenIn := "MA", tokenOut := "MB", amount := 1000000,
                           slippageBps := 100 } } :
          QuoteRequest → Except String QuoteResponse)
          (routeRequest
            { orderId := "OID3", tokenIn := "MA", tokenOut := "MB",
              amount := 1000000, orderType := "market", receivedAt := "t0",
              emittedStatuses := [], lastTxSignature := none, lastError := none })) :=
  (findBestRoute_selects_max_estimatedOut
    { orderId := "OID3", tokenIn := "MA", tokenOut := "MB",
      amount := 1000000, orderType := "market", receivedAt := "t0",
      emittedStatuses := [], lastTxSignature := none, lastError := none }
    (fun _ => Except.ok
      { dex := .raydium, estimatedOut := 2000000, minOut := 1900000,
        poolId := some "rpool",
        request := { tokenIn := "MA", tokenOut := "MB", amount := 1000000,
                     slippageBps := 100 } })
    (fun _ => Except.ok
      { dex := .meteora, estimatedOut := 1800000, minOut := 1700000,
        poolId := some "mpool",
        request := { tokenIn := "MA", tokenOut := "MB", amount := 1000000,
                     slippageBps := 100 } })
    (DexRoutePlan.mk SupportedDex.raydium
      { dex := .raydium, estimatedOut := 2000000, minOut := 1900000,
        poolId := some "rpool",
        request := { tokenIn := "MA", tokenOut := "MB", amount := 1000000,
                     slippageBps := 100 } })
    (by rfl)).1

/-- Claim C4: for a routable order, `findBestRoute` fails with the
`routing/no-quotes` error — carrying both per-venue reason strings — if and
only if both venues failed to produce a quote within their deadline; a
single venue's timeout or rejection is not fatal: whenever at least one
venue's quote is admitted, the call succeeds. -/
theorem findBestRoute_noQuotes_iff_all_venues_fail (order : OrderJobPayload)
    (rq mq : QuoteRequest → Except String QuoteResponse)
    (hamt : 0 < order.amount) :
    ((∃ re me, findBestRoute order rq mq = .error (.noQuotes re me)) ↔
      ((∃ e, rq (routeRequest order) = .error e) ∧
       (∃ e, mq (routeRequest order) = .error e))) ∧
    (∀ er em, rq (routeRequest order) = .error er →
      mq (routeRequest order) = .error em →
      findBestRoute order rq mq = .error (.noQuotes (some er) (some em))) ∧
    (∀ q, (rq (routeRequest order) = .ok q ∨ mq (routeRequest order) = .ok q) →
      ∃ plan, findBestRoute order rq mq = .ok plan) := by
  have hne : ¬order.amount ≤ 0 := not_le.mpr hamt
  unfold findBestRoute
  simp only [hne, if_false]
  rcases hr : rq (routeRequest order) with er | r <;>
    rcases hm : mq (routeRequest order) with em | m <;>
    simp [routeFromOutcomes, successfulQuotes, venueError]

/-- Claim C4 witness: both venues reject; the call fails with the no-quotes
error carrying both reason strings. -/
theorem findBestRoute_noQuotes_iff_all_venues_fail_witness :
    findBestRoute
      { orderId := "OID4", tokenIn := "MA", tokenOut := "MB",
        amount := 1000000, orderType := "market", receivedAt := "t0",
        emittedStatuses := [], lastTxSignature := none, lastError := none }
      (fun _ => Except.error "Raydium timeout")
      (fun _ => Except.error "Meteora down") =
      Except.error (RouterFailure.noQuotes (some "Raydium timeout")
        (some "Meteora down")) :=
  (findBestRoute_noQuotes_iff_all_venues_fail
    { orderId := "OID4", tokenIn := "MA", tokenOut := "MB",
      amount := 1000000, orderType := "market", receivedAt := "t0",
      emittedStatuses := [], lastTxSignature := none, lastError := none }
    (fun _ => Except.error "Raydium timeout")
    (fun _ => Except.error "Meteora down")
    (by norm_num)).2.1 "Raydium timeout" "Meteora down" rfl rfl

/-- Claim C9: the router's implicit amount guard.  Any order with
`amount ≤ 0` makes `findBestRoute` fail with the plain
`'Amount must be positive'` error — uniformly in the venue oracles, i.e.
before any venue quote is requested — and for a positive amount the quote
request handed to both venues carries `amount = BigInt(Math.floor(amount))`
with no decimal scaling. -/
theorem findBestRoute_amount_guard (order : OrderJobPayload)
    (rq mq : QuoteRequest → Except String QuoteResponse) :
    (order.amount ≤ 0 → findBestRoute order rq mq = .error .invalidAmount) ∧
    (0 < order.amount →
      (routeRequest order).amount = ⌊order.amount⌋ ∧
      findBestRoute order rq mq =
        routeFromOutcomes (rq (routeRequest order)) (mq (routeRequest order))) := by
  constructor
  · intro hle
    simp [findBestRoute, hle]
  · intro hpos
    exact ⟨rfl, by simp [findBestRoute, not_le.mpr hpos]⟩

/-- Claim C9 witness: an order with amount `-5` fails with the amount
guard regardless of venue behaviour; an order with fractional amount `3/2`
sends the venues a request for `1` base unit. -/
theorem findBestRoute_amount_guard_witness :
    findBestRoute
      { orderId := "OID9", tokenIn := "MA", tokenOut := "MB",
        amount := -5, orderType := "market", receivedAt := "t0",
        emittedStatuses := [], lastTxSignature := none, lastError := none }
      (fun _ => Except.error "unreached")
      (fun _ => Except.error "unreached") =
        Except.error RouterFailure.invalidAmount ∧
    (routeRequest
      { orderId := "OID9B", tokenIn := "MA", tokenOut := "MB",
        amount := 3 / 2, orderType := "market", receivedAt := "t0",
        emittedStatuses := [], lastTxSignature := none, lastError := none }).amount
      = 1 := by
  constructor
  · exact (findBestRoute_amount_guard
      { orderId := "OID9", tokenIn := "MA", tokenOut := "MB",
        amount := -5, orderType := "market", receivedAt := "t0",
        emittedStatuses := [], lastTxSignature := none, lastError := none }
      (fun _ => Except.error "unreached")
      (fun _ => Except.error "unreached")).1 (by norm_num)
  · have h := (findBestRoute_amount_guard
      { orderId := "OID9B", tokenIn := "MA", tokenOut := "MB",
        amount := 3 / 2, orderType := "market", receivedAt := "t0",
        emittedStatuses := [], lastTxSignature := none, lastError := none }
      (fun _ => Except.error "unreached")
      (fun _ => Except.error "unreached")).2 (by norm_num)
    rw [h.1]
    norm_num [Int.floor_eq_iff]

/-- Reserve data of a Raydium CPMM pool as fetched over RPC
(`rpcData.baseReserve` / `rpcData.quoteReserve`; `none` models an absent
field — the code's `!rpcData.baseReserve` tests presence, a BN object being
truthy even at zero). -/
structure CpmmRpcData where
  baseReserve : Option Int
  quoteReserve : Option Int
deriving DecidableEq, Repr

/-- A Raydium pool candidate as assembled by `fetchCandidates`: the pool id
together with the pool mints as resolved by `derivePoolMints` (an optional
value models the `null` result of the resolution helpers) and the RPC
reserve data. -/
structure PoolCandidate where
  poolId : String
  mintA : Option String
  mintB : Option String
  rpcData : CpmmRpcData
deriving DecidableEq, Repr

/-- `RaydiumClient.resolveDirection`: `true` when the input mint is the
pool's mint A (base-in), `false` when it is mint B, `null` otherwise. -/
def resolveDirection (tokenIn : String) (mintA mintB : Option String) :
    Option Bool :=
  if mintA = some tokenIn then some true
  else if mintB = some tokenIn then some false
  else none

/-- `RaydiumClient.computeQuote`: constant-product quote from the pool
reserves with the 0.25% trade fee,
`estimatedOut = floor(inputAfterFee·reserveOut / (reserveIn+inputAfterFee))`
with `inputAfterFee = floor(input·9975/10000)`, then
`minOut = (estimatedOut * (10000 − slippageBps)) / 10000` in `bigint`
arithmetic.  BN and `bigint` division truncate; `Int.div` matches on the
non-negative operands that occur (a zero denominator, which in BN.js would
throw inside the venue call and equally yield no quote, evaluates to zero
output and hence `none`).  Returns `none` on every rejection path of the
source. -/
def computeQuote (candidate : PoolCandidate) (request : QuoteRequest) :
    Option QuoteResponse :=
  match candidate.mintA, candidate.mintB with
  | some _, some _ =>
    match resolveDirection request.tokenIn candidate.mintA candidate.mintB with
    | none => none
    | some baseIn =>
      let inputAmount := request.amount
      if inputAmount = 0 then none
      else
        match candidate.rpcData.baseReserve, candidate.rpcData.quoteReserve with
        | some base, some quoteR =>
          let reserveIn := if baseIn then base else quoteR
          let reserveOut := if baseIn then quoteR else base
          let inputAfterFee := Int.tdiv (inputAmount * 9975) 10000
          let numerator := inputAfterFee * reserveOut
          let denominator := reserveIn + inputAfterFee
          let estimatedOut := Int.tdiv numerator denominator
          if estimatedOut ≤ 0 then none
          else
            some { dex := .raydium, estimatedOut := estimatedOut,
                   minOut := Int.tdiv (estimatedOut * (10000 - request.slippageBps)) 10000,
                   poolId := some candidate.poolId, request := request }
        | _, _ => none
  | _, _ => none

/-- A swap quote as returned by the Meteora SDK's
`AmmImpl.getSwapQuote` — an external input to the client. -/
structure MeteoraSdkQuote where
  poolAddress : String
  swapOutAmount : Int
  minSwapOutAmount : Int
deriving DecidableEq, Repr

/-- A Meteora pool as seen by `MeteoraClient.getQuote`: the two pool mints
(from `searchPoolsByToken`) and the SDK quote for the request, `none` when
`fetchPoolQuote` throws (the client logs and skips such pools). -/
structure MeteoraPool where
  tokenAMint : String
  tokenBMint : String
  quoteResult : Option MeteoraSdkQuote
deriving DecidableEq, Repr

/-- `MeteoraClient.matchPool`: the pool covers the pair in either
direction. -/
def matchPool (tokenA tokenB input output : String) : Bool :=
  (tokenA == input && tokenB == output) || (tokenB == input && tokenA == output)

/-- `MeteoraClient.getQuote`: filter the discovered pools to those matching
the pair, quote each one through the SDK keeping the strictly largest
`swapOutAmount` (first wins ties), and return the SDK's
`swapOutAmount`/`minSwapOutAmount` verbatim as
`estimatedOut`/`minOut` — the client applies no slippage arithmetic of its
own. -/
def meteoraGetQuote (pools : List MeteoraPool) (request : QuoteRequest) :
    Except String QuoteResponse :=
  let matched := pools.filter
    (fun p => matchPool p.tokenAMint p.tokenBMint request.tokenIn request.tokenOut)
  if matched.isEmpty then
    .error "No Meteora pools available for requested pair"
  else
    let best := matched.foldl
      (fun best pool =>
        match pool.quoteResult with
        | none => best
        | some quote =>
          match best with
          | none => some quote
          | some b =>
            if quote.swapOutAmount > b.swapOutAmount then some quote else some b)
      none
    match best with
    | none => .error "Meteora pools failed to return a quote"
    | some quote =>
      .ok { dex := .meteora, estimatedOut := quote.swapOutAmount,
            minOut := quote.minSwapOutAmount,
            poolId := some quote.poolAddress, request := request }

/-- Claim C5 counterexample: the Meteora client forwards the SDK's
`minSwapOutAmount` verbatim, so a quote response whose `minOut` differs
from `floor(estimatedOut · (10000 − slippageBps) / 10000)` is produced:
with `estimatedOut = minOut = 100` and `slippageBps = 100` the claimed
formula demands `minOut = 99`. -/
theorem meteora_minOut_violates_slippage_formula :
    meteoraGetQuote
      [{ tokenAMint := "MA", tokenBMint := "MB",
         quoteResult := some { poolAddress := "mpool", swapOutAmount := 100,
                               minSwapOutAmount := 100 } }]
      { tokenIn := "MA", tokenOut := "MB", amount := 1000000,
        slippageBps := 100 } =
      Except.ok { dex := .meteora, estimatedOut := 100, minOut := 100,
                  poolId := some "mpool",
                  request := { tokenIn := "MA", tokenOut := "MB",
                               amount := 1000000, slippageBps := 100 } } ∧
    ¬((100 : Int) = Int.tdiv (100 * (10000 - 100)) 10000) := by
  constructor
  · rfl
  · decide

/-- Claim C5 (amended): every quote response the Raydium client's
`computeQuote` produces satisfies
`minOut = floor(estimatedOut · (10000 − slippageBps) / 10000)`,
`minOut ≤ estimatedOut` and `estimatedOut > 0`, for any request within the
data model's slippage range; the Meteora client enforces no such relation
(it forwards the SDK's amounts verbatim). -/
theorem raydium_computeQuote_slippage_invariant (candidate : PoolCandidate)
    (request : QuoteRequest) (q : QuoteResponse)
    (hamt : 0 ≤ request.amount)
    (hres : ∀ b, (candidate.rpcData.baseReserve = some b ∨
        candidate.rpcData.quoteReserve = some b) → 0 ≤ b)
    (hs1 : 0 ≤ request.slippageBps) (hs2 : request.slippageBps ≤ 10000)
    (h : computeQuote candidate request = some q) :
    q.minOut =
      ⌊((q.estimatedOut * (10000 - request.slippageBps) : Int) : ℚ) / 10000⌋ ∧
    q.minOut ≤ q.estimatedOut ∧
    0 < q.estimatedOut := by
  unfold computeQuote at h
  rcases hA : candidate.mintA with _ | mA <;> rw [hA] at h
  · exact absurd h (by simp)
  rcases hB : candidate.mintB with _ | mB <;> rw [hB] at h
  · exact absurd h (by simp)
  rcases hd : resolveDirection request.tokenIn (some mA) (some mB)
      with _ | baseIn <;> rw [hd] at h
  · exact absurd h (by simp)
  dsimp only at h
  by_cases hz : request.amount = 0
  · rw [if_pos hz] at h
    exact absurd h (by simp)
  rw [if_neg hz] at h
  rcases hb : candidate.rpcData.baseReserve with _ | base <;> rw [hb] at h
  · exact absurd h (by simp)
  rcases hq2 : candidate.rpcData.quoteReserve with _ | quoteR <;> rw [hq2] at h
  · exact absurd h (by simp)
  simp only at h
  by_cases hneg :
      Int.tdiv (Int.tdiv (request.amount * 9975) 10000 *
          (if baseIn then quoteR else base))
        ((if baseIn then base else quoteR) +
          Int.tdiv (request.amount * 9975) 10000) ≤ 0
  · rw [if_pos hneg] at h
    exact absurd h (by simp)
  rw [if_neg hneg] at h
  injection h with h2
  subst h2
  push_neg at hneg
  simp only
  have hcoef : (0 : Int) ≤ 10000 - request.slippageBps := by omega
  have hprod : (0 : Int) ≤
      Int.tdiv (Int.tdiv (request.amount * 9975) 10000 *
          (if baseIn then quoteR else base))
        ((if baseIn then base else quoteR) +
          Int.tdiv (request.amount * 9975) 10000) *
        (10000 - request.slippageBps) :=
    mul_nonneg (le_of_lt hneg) hcoef
  refine ⟨?_, ?_, hneg⟩
  · rw [Int.div_eq_ediv hprod (by norm_num)]
    rw [show ((10000 : ℚ)) = ((10000 : ℕ) : ℚ) by norm_num,
      Rat.floor_intCast_div_natCast]
    norm_num
  · rw [Int.div_eq_ediv hprod (by norm_num)]
    calc _ ≤ (Int.tdiv (Int.tdiv (request.amount * 9975) 10000 *
          (if baseIn then quoteR else base))
          ((if baseIn then base else quoteR) +
            Int.tdiv (request.amount * 9975) 10000) * 10000) / 10000 := by
          apply Int.ediv_le_ediv (by norm_num)
          have := le_of_lt hneg
          nlinarith
      _ = _ := Int.mul_ediv_cancel _ (by norm_num)

/-- Claim C5 witness: a concrete Raydium pool quote; `computeQuote` yields
`estimatedOut = 996505`, `minOut = 986539 = floor(996505·9900/10000)`. -/
theorem raydium_computeQuote_slippage_invariant_witness :
    (986539 : Int) =
      ⌊(((996505 : Int) * (10000 - 100) : Int) : ℚ) / 10000⌋ ∧
    (986539 : Int) ≤ 996505 ∧ (0 : Int) < 996505 := by
  have h := raydium_computeQuote_slippage_invariant
    { poolId := "rpool", mintA := some "MA", mintB := some "MB",
      rpcData := { baseReserve := some 1000000000,
                   quoteReserve := some 1000000000 } }
    { tokenIn := "MA", tokenOut := "MB", amount := 1000000, slippageBps := 100 }
    { dex := .raydium, estimatedOut := 996505, minOut := 986539,
      poolId := some "rpool",
      request := { tokenIn := "MA", tokenOut := "MB", amount := 1000000,
                   slippageBps := 100 } }
    (by norm_num)
    (by intro b hb; rcases hb with hb | hb <;> injection hb with hb <;> omega)
    (by norm_num) (by norm_num) (by decide)
  simpa using h

/-- A row of the `order_history` table as the list query sees it.  Only
`order_id` and `updated_at` (as an abstract instant) take part in
filtering, ordering and pagination; the remaining columns are selected
verbatim and are irrelevant to the claims. -/
structure OrderHistoryRow where
  orderId : String
  updatedAt : Nat
deriving DecidableEq, Repr

/-- Row order of `ORDER BY updated_at DESC`. -/
def rowGe (a b : OrderHistoryRow) : Prop := b.updatedAt ≤ a.updatedAt

instance : DecidableRel rowGe := fun _ _ => Nat.decLe _ _

instance : IsTotal OrderHistoryRow rowGe :=
  ⟨fun a b => Nat.le_total b.updatedAt a.updatedAt⟩

instance : IsTrans OrderHistoryRow rowGe :=
  ⟨fun _ _ _ hab hbc => Nat.le_trans hbc hab⟩

/-- `ORDER BY updated_at DESC` over the table (SQL leaves the relative
order of equal keys unspecified; a stable sort is one admissible
realisation). -/
def sortByUpdatedAtDesc (l : List OrderHistoryRow) : List OrderHistoryRow :=
  l.insertionSort rowGe

/-- `OrderHistoryRepository.listOrders({limit, cursor})`, the semantics of
the repository's `listQuery`: keep rows with `updated_at < cursor` when a
cursor is given, order by `updated_at` descending, take `LIMIT` rows;
`nextCursor` is the last returned row's `updated_at` exactly when a full
page came back, else `null`. -/
def listOrders (table : List OrderHistoryRow) (limit : Nat)
    (cursor : Option Nat) : List OrderHistoryRow × Option Nat :=
  let filtered := match cursor with
    | none => table
    | some c => table.filter (fun r => r.updatedAt < c)
  let rows := (sortByUpdatedAtDesc filtered).take limit
  let nextCursor :=
    if rows.length = limit then rows.getLast?.map (fun r => r.updatedAt)
    else none
  (rows, nextCursor)

/-- The cursor query parameter as the history service sees it.  The
`Date.parse` verdict on the raw string is JS-runtime behaviour and enters
the model as data: a parseable cursor carries the instant that
`new Date(cursor).toISOString()` normalises to. -/
inductive CursorInput
  | absent
  | unparseable (raw : String)
  | parseable (raw : String) (instant : Nat)
deriving DecidableEq, Repr

/-- `ListHistoryResponse`: rows plus the pagination envelope the service
returns. -/
structure ListHistoryResponse where
  data : List OrderHistoryRow
  limit : Int
  nextCursor : Option Nat
  hasMore : Bool
deriving DecidableEq, Repr

/-- `OrderHistoryService.list({limit, cursor})`: clamp the limit with
`Math.min(Math.max(limit ?? 50, 1), 200)`, drop a cursor that does not
parse as a date (normalising a parseable one), delegate to the repository
and report `hasMore = Boolean(nextCursor)`. -/
def OrderHistoryService.list (table : List OrderHistoryRow)
    (limitParam : Option Int) (cursor : CursorInput) : ListHistoryResponse :=
  let normalizedLimit : Int := min (max (limitParam.getD 50) 1) 200
  let cursorIso : Option Nat := match cursor with
    | .absent => none
    | .unparseable _ => none
    | .parseable _ t => some t
  let result := listOrders table normalizedLimit.toNat cursorIso
  { data := result.1, limit := normalizedLimit, nextCursor := result.2,
    hasMore := result.2.isSome }

theorem listOrders_spec (table : List OrderHistoryRow) (limit : Nat)
    (cursor : Option Nat) :
    (∀ c, cursor = some c →
      ∀ r ∈ (listOrders table limit cursor).1, r.updatedAt < c) ∧
    (listOrders table limit cursor).1.Pairwise rowGe ∧
    ((listOrders table limit cursor).1.length = limit →
      (listOrders table limit cursor).2 =
        (listOrders table limit cursor).1.getLast?.map (fun r => r.updatedAt)) ∧
    ((listOrders table limit cursor).1.length ≠ limit →
      (listOrders table limit cursor).2 = none) := by
  refine ⟨?_, ?_, ?_, ?_⟩
  · intro c hc r hr
    subst hc
    simp only [listOrders] at hr
    have h1 : r ∈ sortByUpdatedAtDesc
        (table.filter (fun r => r.updatedAt < c)) :=
      List.mem_of_mem_take hr
    have h2 : r ∈ table.filter (fun r => r.updatedAt < c) :=
      ((List.perm_insertionSort rowGe _).mem_iff).mp h1
    have h3 := List.of_mem_filter h2
    simpa using h3
  · have hsorted : (sortByUpdatedAtDesc (match cursor with
        | none => table
        | some c => table.filter (fun r => r.updatedAt < c))).Pairwise rowGe :=
      List.sorted_insertionSort rowGe _
    exact hsorted.sublist (List.take_sublist _ _)
  · intro hlen
    simp only [listOrders] at hlen ⊢
    rw [if_pos hlen]
  · intro hlen
    simp only [listOrders] at hlen ⊢
    rw [if_neg hlen]

/-- Claim C7: the history list contract.  The effective limit is the
requested limit clamped to `[1, 200]` (50 when absent); with a (parseable)
cursor every returned row has `updatedAt` strictly below the cursor
instant; rows come back ordered by `updatedAt` descending; `nextCursor`
equals the last returned row's `updatedAt` exactly when a full page —
`effective limit` rows — was returned and is `null` otherwise; and
`hasMore` holds exactly when `nextCursor` is non-null. -/
theorem history_list_pagination_contract (table : List OrderHistoryRow)
    (limitParam : Option Int) (cursor : CursorInput)
    (resp : ListHistoryResponse)
    (hresp : OrderHistoryService.list table limitParam cursor = resp) :
    (1 ≤ resp.limit ∧ resp.limit ≤ 200) ∧
    (limitParam = none → resp.limit = 50) ∧
    (∀ l, limitParam = some l → 1 ≤ l → l ≤ 200 → resp.limit = l) ∧
    (∀ l, limitParam = some l → l < 1 → resp.limit = 1) ∧
    (∀ l, limitParam = some l → 200 < l → resp.limit = 200) ∧
    (∀ raw t, cursor = .parseable raw t → ∀ r ∈ resp.data, r.updatedAt < t) ∧
    resp.data.Pairwise rowGe ∧
    (resp.data.length = resp.limit.toNat →
      resp.nextCursor = resp.data.getLast?.map (fun r => r.updatedAt)) ∧
    (resp.data.length ≠ resp.limit.toNat → resp.nextCursor = none) ∧
    resp.hasMore = resp.nextCursor.isSome := by
  subst hresp
  obtain ⟨hcur, hsort, hfull, hpartial⟩ :=
    listOrders_spec table (min (max (limitParam.getD 50) 1) 200).toNat
      (match cursor with
        | .absent => none
        | .unparseable _ => none
        | .parseable _ t => some t)
  refine ⟨⟨?_, ?_⟩, ?_, ?_, ?_, ?_, ?_, hsort, hfull, hpartial, rfl⟩
  · show (1 : Int) ≤ min (max (limitParam.getD 50) 1) 200
    rcases limitParam with _ | l <;> simp <;> omega
  · show min (max (limitParam.getD 50) 1) 200 ≤ (200 : Int)
    rcases limitParam with _ | l <;> simp
  · intro h
    subst h
    rfl
  · intro l h h1 h200
    subst h
    show min (max l 1) 200 = l
    omega
  · intro l h h1
    subst h
    show min (max l 1) 200 = 1
    omega
  · intro l h h200
    subst h
    show min (max l 1) 200 = 200
    omega
  · intro raw t hcurEq r hr
    subst hcurEq
    exact hcur t rfl r hr

/-- Claim C7 witness: three rows, limit 2, cursor at instant 25: the two
matching rows come back in descending `updatedAt` order as a full page, so
`nextCursor` is the last row's `updatedAt`. -/
theorem history_list_pagination_contract_witness :
    (OrderHistoryService.list
        [{ orderId := "o1", updatedAt := 10 },
         { orderId := "o2", updatedAt := 30 },
         { orderId := "o3", updatedAt := 20 }]
        (some 2) (CursorInput.parseable "2026-01-01T00:00:00.025Z" 25)).nextCursor =
      (OrderHistoryService.list
        [{ orderId := "o1", updatedAt := 10 },
         { orderId := "o2", updatedAt := 30 },
         { orderId := "o3", updatedAt := 20 }]
        (some 2) (CursorInput.parseable "2026-01-01T00:00:00.025Z" 25)).data.getLast?.map
        (fun r => r.updatedAt) :=
  (history_list_pagination_contract
    [{ orderId := "o1", updatedAt := 10 },
     { orderId := "o2", updatedAt := 30 },
     { orderId := "o3", updatedAt := 20 }]
    (some 2) (CursorInput.parseable "2026-01-01T00:00:00.025Z" 25)
    (OrderHistoryService.list
      [{ orderId := "o1", updatedAt := 10 },
       { orderId := "o2", updatedAt := 30 },
       { orderId := "o3", updatedAt := 20 }]
      (some 2) (CursorInput.parseable "2026-01-01T00:00:00.025Z" 25))
    rfl).2.2.2.2.2.2.2.1 (by decide)

/-- Claim C10: cursor sanitization in the history service.  A cursor
string that does not parse as a date is treated exactly as if no cursor had
been supplied (the first page is returned, no failure, no empty result);
for a parseable cursor only the normalised instant — what
`new Date(cursor).toISOString()` denotes — reaches the repository, the raw
spelling being irrelevant. -/
theorem history_list_cursor_sanitization (table : List OrderHistoryRow)
    (limitParam : Option Int) :
    (∀ raw, OrderHistoryService.list table limitParam (.unparseable raw) =
      OrderHistoryService.list table limitParam .absent) ∧
    (∀ raw1 raw2 t,
      OrderHistoryService.list table limitParam (.parseable raw1 t) =
        OrderHistoryService.list table limitParam (.parseable raw2 t)) ∧
    (∀ raw t,
      (OrderHistoryService.list table limitParam (.parseable raw t)).data =
        (listOrders table (min (max (limitParam.getD 50) 1) 200).toNat
          (some t)).1) :=
  ⟨fun _ => rfl, fun _ _ _ => rfl, fun _ _ => rfl⟩

/-- The market-order input after schema validation.

Modelled from the spec: `marketOrderSchema` and `MarketOrderInput` live in
the order types module, which is absent from the source snapshot.  Per
§4.8 the schema requires `tokenIn`/`tokenOut` non-empty strings, a
positive `amount` and `orderType = "market"`; the parsed type must also
expose an optional `orderId` — the service reads `parsed.orderId` — which
the schema passes through when the caller supplies one. -/
structure MarketOrderInput where
  tokenIn : String
  tokenOut : String
  amount : Rat
  orderType : String
  orderId : Option String
deriving DecidableEq, Repr

/-- Modelled from the spec: `marketOrderSchema.parse` — reject empty
tokens, non-positive amounts and a non-`market` order type, else return
the input unchanged. -/
def marketOrderSchemaParse (payload : MarketOrderInput) :
    Except String MarketOrderInput :=
  if payload.tokenIn = "" then .error "Invalid payload"
  else if payload.tokenOut = "" then .error "Invalid payload"
  else if payload.amount ≤ 0 then .error "Invalid payload"
  else if payload.orderType ≠ "market" then .error "Invalid payload"
  else .ok payload

/-- The collaborators of `OrderService.submitMarketOrder` and its oracle
inputs: the next identifier `generateOrderId` would produce, the current
timestamp, the log of jobs handed to `enqueueOrderJob` and the log of
initial rows written through `orderHistoryService.recordNewOrder` — a
collaborator the service never invokes. -/
structure IntakeEnv where
  generatedId : String
  now : String
  enqueuedJobs : List OrderJobPayload
  historyInserts : List OrderJobPayload

/-- `OrderService.submitMarketOrder(payload)`: validate, take the
caller-supplied `orderId` when present and truthy — otherwise generate one
(`parsed.orderId || generateOrderId()`) — build the job payload with
`receivedAt = now()`, enqueue it and return it.  No history row is
written. -/
def submitMarketOrder (env : IntakeEnv) (payload : MarketOrderInput) :
    Except String (IntakeEnv × OrderJobPayload) :=
  match marketOrderSchemaParse payload with
  | .error e => .error e
  | .ok parsed =>
    let orderId := match parsed.orderId with
      | some id => if id = "" then env.generatedId else id
      | none => env.generatedId
    let jobPayload : OrderJobPayload :=
      { orderId := orderId, tokenIn := parsed.tokenIn,
        tokenOut := parsed.tokenOut, amount := parsed.amount,
        orderType := parsed.orderType, receivedAt := env.now,
        emittedStatuses := [], lastTxSignature := none, lastError := none }
    .ok ({ env with enqueuedJobs := env.enqueuedJobs ++ [jobPayload] },
      jobPayload)

/-- Claim C2 (evidence of the divergence): a valid market order is accepted,
enqueued and returned with `receivedAt = now()`, but no initial history row
is written — `submitMarketOrder` never calls
`orderHistoryService.recordNewOrder`, although the repository's own test
suite expects that call — and a caller-supplied `orderId` is honoured
instead of one generated by the identifier generator. -/
theorem submitMarketOrder_omits_initial_history_row :
    submitMarketOrder
      { generatedId := "GEN123456789", now := "2026-01-01T00:00:00.000Z",
        enqueuedJobs := [], historyInserts := [] }
      { tokenIn := "So11111111111111111111111111111111111111112",
        tokenOut := "EPjFWdd5AufqSSqeM2qN1xzybapC8G4wEGGkZwyTDt1v",
        amount := 1000000, orderType := "market",
        orderId := some "CLIENT-SUPPLIED-1" } =
      Except.ok
        ({ generatedId := "GEN123456789", now := "2026-01-01T00:00:00.000Z",
           enqueuedJobs :=
             [{ orderId := "CLIENT-SUPPLIED-1",
                tokenIn := "So11111111111111111111111111111111111111112",
                tokenOut := "EPjFWdd5AufqSSqeM2qN1xzybapC8G4wEGGkZwyTDt1v",
                amount := 1000000, orderType := "market",
                receivedAt := "2026-01-01T00:00:00.000Z",
                emittedStatuses := [], lastTxSignature := none,
                lastError := none }],
           historyInserts := [] },
         { orderId := "CLIENT-SUPPLIED-1",
           tokenIn := "So11111111111111111111111111111111111111112",
           tokenOut := "EPjFWdd5AufqSSqeM2qN1xzybapC8G4wEGGkZwyTDt1v",
           amount := 1000000, orderType := "market",
           receivedAt := "2026-01-01T00:00:00.000Z",
           emittedStatuses := [], lastTxSignature := none,
           lastError := none }) ∧
    "CLIENT-SUPPLIED-1" ≠ "GEN123456789" := by
  constructor
  · rfl
  · decide
